import Mathlib

/-!
Verification development for the calendar app's form/checklist subsystem
(schema-to-validator compiler, default values, schema store, file upload).

The repository contains three parallel implementations of the schema
compiler:

* the "checklist" variant (`src/unnamed/part_005`, re-exported as the
  checklist builder's `utils`), embedded below in namespace `CB`;
* the "form" variant (`src/unnamed/part_006`, the `FormRender` utils),
  embedded below in namespace `FB`;
* the form-builder viewer's inline copy (`FormViewer.tsx`), embedded
  below in namespace `FV`.

Both are thin layers over the zod v3 validation library, so a small
executable model of the zod combinators actually used by the code is
developed first.  The model reproduces zod's parse semantics for this
fragment:

* a `z.string()` schema carries a list of checks (`.min`, `.max`,
  `.email`, `.regex`) which are run in the order they were chained;
  every failing check contributes its message and parsing continues
  (zod marks the result "dirty" but never aborts on a string check);
* `.refine` wraps a schema; the refinement runs after the inner parse
  (also when the inner parse was merely dirty) and appends its message
  on failure;
* `.optional()` accepts `undefined`, otherwise defers to the inner
  schema;
* `.or` / `z.union` succeeds if either branch succeeds; when both fail
  it surfaces the issues of the first non-fatal ("dirty") branch, and
  only when every branch failed fatally does it produce the generic
  `invalid_union` issue (this is also what the app's zodResolver ends up
  displaying);
* `z.coerce.number()` applies JavaScript `Number(...)` coercion first;
* type mismatches (`z.boolean()` on a string, `z.literal` mismatch,
  `NaN` after coercion) are fatal.

A parse outcome is a list of issue messages plus a fatality flag; an
empty issue list means the value was accepted.
-/

namespace Calendar

/-- A browser `File` as far as the code observes it: name, byte size and
MIME type. -/
structure JsFile where
  name : String
  size : Nat
  ftype : String
  deriving DecidableEq, Repr

/-- A live form value.  Shapes per field type: string for text-like
fields, boolean for checkbox, list of strings for checklist, number for
range, a `{min,max}` string pair for `min_max`, a file collection for
file fields; `undef` is JavaScript `undefined`. -/
inductive Value where
  | vstr (s : String)
  | vnum (n : Int)
  | vbool (b : Bool)
  | vlist (xs : List String)
  | vpair (mn mx : String)
  | vfiles (fs : List JsFile)
  | vundef
  deriving DecidableEq, Repr

/-- `FieldValidation` from `types.ts` (both variants declare the same
record).  Absent keys are `none`. -/
structure FieldValidation where
  minLength : Option Nat := none
  maxLength : Option Nat := none
  pattern : Option String := none
  patternMessage : Option String := none
  minValue : Option Int := none
  maxValue : Option Int := none
  minDate : Option String := none
  maxDate : Option String := none
  requiredMessage : Option String := none
  minSelections : Option Nat := none
  maxSelections : Option Nat := none
  maxFileSize : Option Nat := none
  deriving DecidableEq, Repr

/-- `FormFieldInternal` / `ChecklistFieldInternal` from `types.ts`.
The `type` tag is kept as a raw string because the compilers dispatch on
it dynamically and must tolerate unrecognized tags; a missing `id` is
represented by `""` (the code only ever tests `id` for truthiness, which
identifies the two). -/
structure Field where
  id : String
  ftype : String
  label : String := ""
  required : Bool := false
  options : Option (List String) := none
  acceptedFileTypes : Option (List String) := none
  maxFiles : Option Nat := none
  min : Option Int := none
  max : Option Int := none
  step : Option Int := none
  disableSpinners : Option Bool := none
  validation : Option FieldValidation := none
  deriving DecidableEq, Repr

/-- JavaScript truthiness of an optional number (`undefined` and `0` are
falsy). -/
def natTruthy : Option Nat → Bool
  | some n => n != 0
  | none => false

/-- JavaScript truthiness of an optional string (`undefined` and `""`
are falsy). -/
def strTruthy : Option String → Bool
  | some s => s != ""
  | none => false

/-- JavaScript `x || d` for an optional string `x`: the default wins when
`x` is `undefined` or empty. -/
def orDefault (o : Option String) (d : String) : String :=
  match o with
  | some s => if s = "" then d else s
  | none => d

/-- Character class of zod's email regex local part:
`[A-Z0-9_'+\-\.]` (case-insensitive). -/
def emailLocalChar (c : Char) : Bool :=
  c.isAlphanum || c == '_' || c == '\'' || c == '+' || c == '-' || c == '.'

/-- Last character of the local part: `[A-Z0-9_+-]`. -/
def emailLocalEndChar (c : Char) : Bool :=
  c.isAlphanum || c == '_' || c == '+' || c == '-'

/-- Split a character list at every occurrence of a separator character
(the list-level counterpart of `String.split`). -/
def splitOnChar (c : Char) : List Char → List (List Char)
  | [] => [[]]
  | x :: xs =>
    match splitOnChar c xs with
    | [] => [[]]
    | g :: gs => if x == c then [] :: g :: gs else (x :: g) :: gs

/-- Whether two consecutive dots occur (the `(?!.*\.\.)` lookahead). -/
def hasDoubleDot : List Char → Bool
  | a :: b :: rest => (a == '.' && b == '.') || hasDoubleDot (b :: rest)
  | _ => false

/-- A domain label `[A-Z0-9][A-Z0-9\-]*`. -/
def emailLabelOk : List Char → Bool
  | [] => false
  | c :: cs => c.isAlphanum && cs.all (fun d => d.isAlphanum || d == '-')

/-- zod v3's email regex
`^(?!\.)(?!.*\.\.)([A-Z0-9_'+\-\.]*)[A-Z0-9_+-]@([A-Z0-9][A-Z0-9\-]*\.)+[A-Z]{2,}$/i`:
a local part over the allowed class, not starting with a dot, without
`..` anywhere, ending in `[A-Z0-9_+-]`, then `@`, then one or more
labels and a final alphabetic TLD of length at least 2. -/
def emailMatches (s : String) : Bool :=
  let cs := s.data
  match splitOnChar '@' cs with
  | [l, d] =>
    (match l.getLast? with
     | some c => emailLocalEndChar c
     | none => false)
    && l.all emailLocalChar
    && (match cs with
        | '.' :: _ => false
        | _ => true)
    && !hasDoubleDot cs
    && (match (splitOnChar '.' d).reverse with
        | tld :: labels =>
          !labels.isEmpty && labels.all emailLabelOk
            && tld.length ≥ 2 && tld.all Char.isAlpha
        | [] => false)
  | _ => false

/-- Character class of the phone regex: `[0-9\s\-()]` (`\s` is
JavaScript whitespace; the app only meets the ASCII ones). -/
def phoneChar (c : Char) : Bool :=
  c.isDigit || c == ' ' || c == '\t' || c == '\n' || c == '\r' || c == '-' || c == '(' || c == ')'

/-- The phone regex `^\+?[0-9\s\-()]{7,20}$` used by both variants. -/
def phoneMatches (s : String) : Bool :=
  let t := match s.data with
    | '+' :: rest => rest
    | cs => cs
  7 ≤ t.length && t.length ≤ 20 && t.all phoneChar

/-- JavaScript `Number(...)` coercion as exercised by `z.coerce.number()`
on the values this app feeds it (strings from inputs, numbers, booleans);
`none` is `NaN`.  Numeric strings are modelled for optionally-signed
integers, which covers every value the claims exercise. -/
def jsToNumber : Value → Option Int
  | .vnum n => some n
  | .vbool b => some (if b then 1 else 0)
  | .vstr s =>
    let t := s.trim
    if t = "" then some 0
    else
      let (sign, digits) :=
        if t.startsWith "-" then ((-1 : Int), t.drop 1)
        else if t.startsWith "+" then (1, t.drop 1) else (1, t)
      if digits ≠ "" && digits.data.all Char.isDigit then
        some (sign * (digits.toNat!))
      else none
  | .vundef => none
  | _ => none

/-- Lexicographic (code-unit) comparison of character lists: the
JavaScript `<` on strings. -/
def jsStrLtL : List Char → List Char → Bool
  | [], [] => false
  | [], _ :: _ => true
  | _ :: _, [] => false
  | a :: as, b :: bs =>
    if a.val < b.val then true else if b.val < a.val then false else jsStrLtL as bs

/-- JavaScript `a >= b` on strings: `¬ (a < b)`. -/
def jsStrGe (a b : String) : Bool := !jsStrLtL a.data b.data

/-- JavaScript `a <= b` on strings: `¬ (b < a)`. -/
def jsStrLe (a b : String) : Bool := !jsStrLtL b.data a.data

/-- One chained check on a `z.string()` schema, with its message. -/
inductive StrCheck where
  | minLen (n : Nat) (msg : String)
  | maxLen (n : Nat) (msg : String)
  | emailChk (msg : String)
  | regexPhone (msg : String)
  deriving Repr

/-- The zod schema combinators the two compilers build. -/
inductive Zs where
  /-- `z.string()` with its chained checks in order. -/
  | zstring (checks : List StrCheck)
  /-- `.refine(pred, msg)`; the predicate receives the parsed value. -/
  | zrefine (inner : Zs) (p : Value → Bool) (msg : String)
  /-- `.optional()`. -/
  | zoptional (inner : Zs)
  /-- `.or` / `z.union` of two schemas. -/
  | zunion (a b : Zs)
  /-- `z.literal(s)`. -/
  | zliteral (s : String)
  /-- `z.coerce.number()` with optional `.min`/`.max` bounds. -/
  | znumberCoerce (lo hi : Option (Int × String))
  /-- plain `z.number()`. -/
  | znumber
  /-- `z.boolean()`. -/
  | zboolean
  /-- `z.array(z.string())` with optional `.min`/`.max` length bounds. -/
  | zarrayStr (lo hi : Option (Nat × String))
  /-- `z.object({min: z.string(), max: z.string()})`. -/
  | zobjMinMax
  /-- `z.any()`. -/
  | zany

/-- Outcome of a zod parse: issue messages in emission order, and
whether the failure was fatal ("aborted": a type-level mismatch) as
opposed to dirty (checks/refinements failed).  An empty issue list is
success. -/
structure ParseResult where
  issues : List String
  fatal : Bool
  deriving DecidableEq, Repr

def ParseResult.ok : ParseResult := ⟨[], false⟩

def ParseResult.isOk (r : ParseResult) : Bool := r.issues.isEmpty

/-- Run one string check on a string value. -/
def runStrCheck (s : String) : StrCheck → Option String
  | .minLen n msg => if s.length < n then some msg else none
  | .maxLen n msg => if s.length > n then some msg else none
  | .emailChk msg => if emailMatches s then none else some msg
  | .regexPhone msg => if phoneMatches s then none else some msg

/-- The zod parse function over the modelled fragment. -/
def zparse : Zs → Value → ParseResult
  | .zstring checks, v =>
    match v with
    | .vstr s => ⟨checks.filterMap (runStrCheck s), false⟩
    | .vundef => ⟨["Required"], true⟩
    | _ => ⟨["Expected string, received other"], true⟩
  | .zrefine inner p msg, v =>
    let r := zparse inner v
    if r.fatal then r
    else if p v then r
    else ⟨r.issues ++ [msg], false⟩
  | .zoptional inner, v =>
    if v = .vundef then .ok else zparse inner v
  | .zunion a b, v =>
    let ra := zparse a v
    let rb := zparse b v
    if ra.isOk then .ok
    else if rb.isOk then .ok
    else if !ra.fatal then ra
    else if !rb.fatal then rb
    else ⟨["Invalid input"], true⟩
  | .zliteral s, v =>
    if v = .vstr s then .ok else ⟨["Invalid literal value, expected \x22" ++ s ++ "\x22"], true⟩
  | .znumberCoerce lo hi, v =>
    match jsToNumber v with
    | none => ⟨["Expected number, received nan"], true⟩
    | some n =>
      let e1 := match lo with
        | some (m, msg) => if n < m then [msg] else []
        | none => []
      let e2 := match hi with
        | some (m, msg) => if n > m then [msg] else []
        | none => []
      ⟨e1 ++ e2, false⟩
  | .znumber, v =>
    match v with
    | .vnum _ => .ok
    | _ => ⟨["Expected number, received other"], true⟩
  | .zboolean, v =>
    match v with
    | .vbool _ => .ok
    | _ => ⟨["Expected boolean, received other"], true⟩
  | .zarrayStr lo hi, v =>
    match v with
    | .vlist xs =>
      let e1 := match lo with
        | some (m, msg) => if xs.length < m then [msg] else []
        | none => []
      let e2 := match hi with
        | some (m, msg) => if xs.length > m then [msg] else []
        | none => []
      ⟨e1 ++ e2, false⟩
    | _ => ⟨["Expected array, received other"], true⟩
  | .zobjMinMax, v =>
    match v with
    | .vpair _ _ => .ok
    | _ => ⟨["Expected object, received other"], true⟩
  | .zany, _ => .ok

/-- JavaScript truthiness of a live value. -/
def jsTruthy : Value → Bool
  | .vstr s => s != ""
  | .vnum n => n != 0
  | .vbool b => b
  | .vundef => false
  | _ => true

/-- JavaScript `v.length` where defined (`undefined` otherwise). -/
def jsLen : Value → Option Nat
  | .vstr s => some s.length
  | .vlist xs => some xs.length
  | .vfiles fs => some fs.length
  | _ => none

/-- The file-required closure `files && files.length > 0` (a JavaScript
comparison against an `undefined` length is false). -/
def jsFilesPresent (v : Value) : Bool :=
  jsTruthy v && (jsLen v).getD 0 > 0

/-- The max-files closure `!files || files.length <= maxFiles`. -/
def jsFilesAtMost (m : Nat) (v : Value) : Bool :=
  !jsTruthy v ||
    (match jsLen v with
     | some n => n ≤ m
     | none => false)

/-- The per-file size closure: empty or absent collections pass, else
every file must be at most `maxFileSize * 1024` bytes.  (The loop body
indexes `files[i].size`, which only a real file collection reaches.) -/
def jsFilesSizeOk (kb : Nat) (v : Value) : Bool :=
  if !jsTruthy v || (jsLen v).getD 0 = 0 then true
  else
    match v with
    | .vfiles fs => fs.all (fun f => f.size ≤ kb * 1024)
    | _ => true

/-- JavaScript object property assignment `shape[k] = v`: an existing
key keeps its position and is overwritten, a new key is appended. -/
def setKey {α : Type} (k : String) (v : α) : List (String × α) → List (String × α)
  | [] => [(k, v)]
  | (k', v') :: rest => if k' == k then (k, v) :: rest else (k', v') :: setKey k v rest

/-- Assoc-list lookup, JavaScript `shape[k]`. -/
def getKey {α : Type} (k : String) : List (String × α) → Option α
  | [] => none
  | (k', v') :: rest => if k' == k then some v' else getKey k rest

/-- `getDefaultValue` (identical in `part_005` and `part_006`):
`checkbox → false`, `checklist → []`, `range → 0`,
`min_max → {min:"",max:""}`, anything else → `""`. -/
def getDefaultValue (t : String) : Value :=
  if t = "checkbox" then .vbool false
  else if t = "checklist" then .vlist []
  else if t = "range" then .vnum 0
  else if t = "min_max" then .vpair "" ""
  else .vstr ""

/-! ## The checklist-variant compiler (`src/unnamed/part_005`) -/

namespace CB

/-- `getStringSchema`: optional `.min(minLength)`/`.max(maxLength)`
(truthy-guarded), then `.min(1, requiredMessage || default)` when
required, else `.optional().or(z.literal(''))`. -/
def getStringSchema (field : Field) : Zs :=
  let v := field.validation.getD {}
  let mn := v.minLength.getD 0
  let mx := v.maxLength.getD 0
  let checks :=
    (if natTruthy v.minLength then [StrCheck.minLen mn s!"Minimum {mn} characters"] else [])
      ++ (if natTruthy v.maxLength then [StrCheck.maxLen mx s!"Maximum {mx} characters"] else [])
  if field.required then
    .zstring (checks ++ [.minLen 1 (orDefault v.requiredMessage "This field is required")])
  else
    .zunion (.zoptional (.zstring checks)) (.zliteral "")

/-- `schemaBuilders.email`. -/
def emailBuilder (field : Field) : Zs :=
  let v := field.validation.getD {}
  let emailChecks := [StrCheck.emailChk (orDefault v.patternMessage "Invalid email address")]
  if field.required then
    .zstring (emailChecks ++ [.minLen 1 (orDefault v.requiredMessage "This field is required")])
  else
    .zunion (.zoptional (.zstring emailChecks)) (.zliteral "")

/-- `schemaBuilders.phone`. -/
def phoneBuilder (field : Field) : Zs :=
  let v := field.validation.getD {}
  let phoneChecks := [StrCheck.regexPhone (orDefault v.patternMessage "Invalid phone number")]
  if field.required then
    .zstring (phoneChecks ++ [.minLen 1 (orDefault v.requiredMessage "This field is required")])
  else
    .zunion (.zoptional (.zstring phoneChecks)) (.zliteral "")

/-- `schemaBuilders.number`: `z.coerce.number()` with optional bounds
(`!== undefined` guards), unioned with `z.literal('')` when not
required. -/
def numberBuilder (field : Field) : Zs :=
  let v := field.validation.getD {}
  let lo := v.minValue.map (fun m => (m, s!"Minimum value is {m}"))
  let hi := v.maxValue.map (fun m => (m, s!"Maximum value is {m}"))
  let num := Zs.znumberCoerce lo hi
  if field.required then num else .zunion num (.zliteral "")

/-- Dynamic dispatch of `.min` on the `dateSchema` variable: it succeeds
only when the receiver is still a plain `z.string()`; after a `.refine`
the receiver is a `ZodEffects`, which has no `min` method, so the call
throws a `TypeError` at schema-build time. -/
def zsMin (s : Zs) (n : Nat) (msg : String) : Except String Zs :=
  match s with
  | .zstring checks => .ok (.zstring (checks ++ [.minLen n msg]))
  | _ => .error "TypeError: dateSchema.min is not a function"

/-- `schemaBuilders.date`: lexical `refine`s against `minDate`/`maxDate`
(truthy-guarded; an empty value passes each refine), then `.min(1, …)`
when required — a dynamic method call that fails when a refine was
attached — else `.optional().or(z.literal(''))`. -/
def dateBuilder (field : Field) : Except String Zs :=
  let v := field.validation.getD {}
  let md := v.minDate.getD ""
  let xd := v.maxDate.getD ""
  let d0 : Zs := .zstring []
  let d1 := if strTruthy v.minDate then
      Zs.zrefine d0
        (fun val => match val with
          | .vstr s => s == "" || jsStrGe s md
          | _ => false)
        s!"Date must be on or after {md}"
    else d0
  let d2 := if strTruthy v.maxDate then
      Zs.zrefine d1
        (fun val => match val with
          | .vstr s => s == "" || jsStrLe s xd
          | _ => false)
        s!"Date must be on or before {xd}"
    else d1
  if field.required then
    zsMin d2 1 (orDefault v.requiredMessage "This field is required")
  else
    .ok (.zunion (.zoptional d2) (.zliteral ""))

/-- `schemaBuilders.checkbox`: required means `val === true`. -/
def checkboxBuilder (field : Field) : Zs :=
  let v := field.validation.getD {}
  if field.required then
    .zrefine .zboolean (fun val => val == .vbool true) (orDefault v.requiredMessage "Required")
  else .zboolean

/-- `schemaBuilders.checklist`: minimum is `minSelections ?? (required ?
1 : 0)` and only enforced when positive; `maxSelections` is
truthy-guarded. -/
def checklistBuilder (field : Field) : Zs :=
  let v := field.validation.getD {}
  let minSel := v.minSelections.getD (if field.required then 1 else 0)
  let ms := v.maxSelections.getD 0
  let lo := if minSel > 0 then
      some (minSel, orDefault v.requiredMessage s!"Select at least {minSel} option(s)")
    else none
  let hi := if natTruthy v.maxSelections then
      some (ms, s!"Select at most {ms} option(s)")
    else none
  .zarrayStr lo hi

/-- `schemaBuilders.radio` (and `select`, which delegates to it). -/
def radioBuilder (field : Field) : Zs :=
  let v := field.validation.getD {}
  if field.required then
    .zstring [.minLen 1 (orDefault v.requiredMessage "Please select an option")]
  else
    .zunion (.zoptional (.zstring [])) (.zliteral "")

/-- `schemaBuilders.file`: `z.any()` with up to three chained refines. -/
def fileBuilder (field : Field) : Zs :=
  let v := field.validation.getD {}
  let mf := field.maxFiles.getD 0
  let kb := v.maxFileSize.getD 0
  let s0 : Zs := .zany
  let s1 := if field.required then
      Zs.zrefine s0 jsFilesPresent (orDefault v.requiredMessage "This field is required")
    else s0
  let s2 := if natTruthy field.maxFiles then
      Zs.zrefine s1 (fun val => jsFilesAtMost mf val) s!"Maximum {mf} file(s) allowed"
    else s1
  if natTruthy v.maxFileSize then
    Zs.zrefine s2 (fun val => jsFilesSizeOk kb val) s!"File exceeds {kb} KB limit"
  else s2

/-- The `schemaBuilders` table as a lookup on the dynamic type tag
(`none` for an unrecognized tag). -/
def schemaBuilderFor (t : String) : Option (Field → Except String Zs) :=
  if t = "text" || t = "textarea" then some (fun f => .ok (getStringSchema f))
  else if t = "email" then some (fun f => .ok (emailBuilder f))
  else if t = "phone" then some (fun f => .ok (phoneBuilder f))
  else if t = "number" then some (fun f => .ok (numberBuilder f))
  else if t = "date" then some dateBuilder
  else if t = "checkbox" then some (fun f => .ok (checkboxBuilder f))
  else if t = "checklist" then some (fun f => .ok (checklistBuilder f))
  else if t = "radio" || t = "select" then some (fun f => .ok (radioBuilder f))
  else if t = "range" then some (fun _ => .ok .znumber)
  else if t = "min_max" then some (fun _ => .ok .zobjMinMax)
  else if t = "file" then some (fun f => .ok (fileBuilder f))
  else none

/-- `(schemaBuilders[field.type] || (() => z.any()))(field)`. -/
def buildFieldSchema (f : Field) : Except String Zs :=
  match schemaBuilderFor f.ftype with
  | some b => b f
  | none => .ok .zany

/-- `buildZodSchema`: one shape entry per truthy field id; a thrown
builder exception propagates. -/
def buildZodSchema (fields : List Field) : Except String (List (String × Zs)) :=
  fields.foldlM
    (fun shape f =>
      if f.id ≠ "" then do
        let s ← buildFieldSchema f
        pure (setKey f.id s shape)
      else pure shape)
    []

end CB

/-! ## The form-variant compiler (`src/unnamed/part_006`) -/

namespace FB

/-- `getStringSchema` (form variant; note the trailing period in the
default required message). -/
def getStringSchema (field : Field) : Zs :=
  let v := field.validation.getD {}
  let mn := v.minLength.getD 0
  let mx := v.maxLength.getD 0
  let checks :=
    (if natTruthy v.minLength then [StrCheck.minLen mn s!"Minimum {mn} characters"] else [])
      ++ (if natTruthy v.maxLength then [StrCheck.maxLen mx s!"Maximum {mx} characters"] else [])
  if field.required then
    .zstring (checks ++ [.minLen 1 (orDefault v.requiredMessage "This field is required.")])
  else
    .zunion (.zoptional (.zstring checks)) (.zliteral "")

/-- `schemaBuilders.email` (form variant): the required branch chains
`.min(1, …)` before `.email(…)`. -/
def emailBuilder (field : Field) : Zs :=
  let v := field.validation.getD {}
  if field.required then
    .zstring [.minLen 1 (orDefault v.requiredMessage "This field is required."),
      .emailChk (orDefault v.patternMessage "Invalid email")]
  else
    .zunion (.zoptional (.zstring [.emailChk (orDefault v.patternMessage "Invalid email")]))
      (.zliteral "")

/-- `schemaBuilders.phone` (form variant). -/
def phoneBuilder (field : Field) : Zs :=
  let v := field.validation.getD {}
  if field.required then
    .zstring [.minLen 1 (orDefault v.requiredMessage "This field is required."),
      .regexPhone (orDefault v.patternMessage "Invalid phone")]
  else
    .zunion (.zoptional (.zstring [.regexPhone (orDefault v.patternMessage "Invalid phone")]))
      (.zliteral "")

/-- `schemaBuilders.number` (form variant): bounds keep zod's default
messages. -/
def numberBuilder (field : Field) : Zs :=
  let v := field.validation.getD {}
  let lo := v.minValue.map (fun m => (m, s!"Number must be greater than or equal to {m}"))
  let hi := v.maxValue.map (fun m => (m, s!"Number must be less than or equal to {m}"))
  let num := Zs.znumberCoerce lo hi
  if field.required then num else .zunion num (.zliteral "")

/-- `schemaBuilders.date` (form variant): `minDate`/`maxDate` are never
consulted. -/
def dateBuilder (field : Field) : Zs :=
  let v := field.validation.getD {}
  if field.required then
    .zstring [.minLen 1 (orDefault v.requiredMessage "This field is required.")]
  else
    .zunion (.zoptional (.zstring [])) (.zliteral "")

/-- `schemaBuilders.checkbox` (form variant): `.refine((val) => val)` —
truthiness. -/
def checkboxBuilder (field : Field) : Zs :=
  let v := field.validation.getD {}
  if field.required then
    .zrefine .zboolean jsTruthy (orDefault v.requiredMessage "This field is required.")
  else .zboolean

/-- `schemaBuilders.checklist` (form variant): the `.max` call keeps
zod's default too-big message. -/
def checklistBuilder (field : Field) : Zs :=
  let v := field.validation.getD {}
  let minSel := v.minSelections.getD (if field.required then 1 else 0)
  let ms := v.maxSelections.getD 0
  let lo := if minSel > 0 then some (minSel, s!"Select at least {minSel}") else none
  let hi := if natTruthy v.maxSelections then
      some (ms, s!"Array must contain at most {ms} element(s)")
    else none
  .zarrayStr lo hi

/-- `schemaBuilders.radio` (and `select`): the optional branch has no
`.or(z.literal(''))` in this variant. -/
def radioBuilder (field : Field) : Zs :=
  let v := field.validation.getD {}
  if field.required then
    .zstring [.minLen 1 (orDefault v.requiredMessage "Select an option")]
  else
    .zoptional (.zstring [])

/-- `schemaBuilders.file` (form variant): only the required refine
(`val?.length > 0`). -/
def fileBuilder (field : Field) : Zs :=
  let v := field.validation.getD {}
  if field.required then
    .zrefine .zany (fun val => (jsLen val).getD 0 > 0)
      (orDefault v.requiredMessage "This field is required.")
  else .zany

/-- The `schemaBuilders` table of the form variant. -/
def schemaBuilderFor (t : String) : Option (Field → Zs) :=
  if t = "text" || t = "textarea" then some getStringSchema
  else if t = "email" then some emailBuilder
  else if t = "phone" then some phoneBuilder
  else if t = "number" then some numberBuilder
  else if t = "date" then some dateBuilder
  else if t = "checkbox" then some checkboxBuilder
  else if t = "checklist" then some checklistBuilder
  else if t = "radio" || t = "select" then some radioBuilder
  else if t = "range" then some (fun _ => .znumber)
  else if t = "min_max" then some (fun _ => .zobjMinMax)
  else if t = "file" then some fileBuilder
  else none

/-- `(schemaBuilders[f.type] || (() => z.any()))(f)`. -/
def buildFieldSchema (f : Field) : Zs :=
  match schemaBuilderFor f.ftype with
  | some b => b f
  | none => .zany

/-- `buildZodSchema` (form variant): total — every builder in this
variant returns without throwing. -/
def buildZodSchema (fields : List Field) : List (String × Zs) :=
  fields.foldl
    (fun shape f => if f.id ≠ "" then setKey f.id (buildFieldSchema f) shape else shape)
    []

end FB

/-! ## The form-builder viewer's inline compiler (`FormViewer.tsx`)

`FormViewer.tsx` carries a third copy of `buildZodSchema` as an inline
`switch`.  Its per-type cases coincide with the checklist variant except
for the text/textarea guards and messages and the checklist
`maxSelections` guard (an `!== undefined` test instead of truthiness);
its date case has the same `.min`-on-`ZodEffects` throw as the checklist
variant. -/

namespace FV

/-- The `text`/`textarea` case: the guards are
`v.minLength !== undefined && v.minLength >= 0` (always satisfied by a
present natural number, unlike the truthiness guard of the other two
variants) and likewise for `maxLength`; note the longer messages. -/
def getStringSchema (field : Field) : Zs :=
  let v := field.validation.getD {}
  let checks :=
    (match v.minLength with
     | some n => [StrCheck.minLen n s!"Minimum {n} characters required"]
     | none => [])
      ++ (match v.maxLength with
          | some n => [StrCheck.maxLen n s!"Maximum {n} characters allowed"]
          | none => [])
  if field.required then
    .zstring (checks ++ [.minLen 1 (orDefault v.requiredMessage "This field is required")])
  else
    .zunion (.zoptional (.zstring checks)) (.zliteral "")

/-- The `email` case (same chain and messages as the checklist
variant). -/
def emailBuilder (field : Field) : Zs :=
  let v := field.validation.getD {}
  let emailChecks := [StrCheck.emailChk (orDefault v.patternMessage "Invalid email address")]
  if field.required then
    .zstring (emailChecks ++ [.minLen 1 (orDefault v.requiredMessage "This field is required")])
  else
    .zunion (.zoptional (.zstring emailChecks)) (.zliteral "")

/-- The `phone` case. -/
def phoneBuilder (field : Field) : Zs :=
  let v := field.validation.getD {}
  let phoneChecks := [StrCheck.regexPhone (orDefault v.patternMessage "Invalid phone number")]
  if field.required then
    .zstring (phoneChecks ++ [.minLen 1 (orDefault v.requiredMessage "This field is required")])
  else
    .zunion (.zoptional (.zstring phoneChecks)) (.zliteral "")

/-- The `number` case (`!== undefined` bound guards). -/
def numberBuilder (field : Field) : Zs :=
  let v := field.validation.getD {}
  let lo := v.minValue.map (fun m => (m, s!"Minimum value is {m}"))
  let hi := v.maxValue.map (fun m => (m, s!"Maximum value is {m}"))
  let num := Zs.znumberCoerce lo hi
  if field.required then num else .zunion num (.zliteral "")

/-- The `date` case: line-for-line the checklist variant's, including
the dynamic `.min` call (`CB.zsMin` models that zod method dispatch)
that throws once a refine was attached. -/
def dateBuilder (field : Field) : Except String Zs :=
  let v := field.validation.getD {}
  let md := v.minDate.getD ""
  let xd := v.maxDate.getD ""
  let d0 : Zs := .zstring []
  let d1 := if strTruthy v.minDate then
      Zs.zrefine d0
        (fun val => match val with
          | .vstr s => s == "" || jsStrGe s md
          | _ => false)
        s!"Date must be on or after {md}"
    else d0
  let d2 := if strTruthy v.maxDate then
      Zs.zrefine d1
        (fun val => match val with
          | .vstr s => s == "" || jsStrLe s xd
          | _ => false)
        s!"Date must be on or before {xd}"
    else d1
  if field.required then
    CB.zsMin d2 1 (orDefault v.requiredMessage "This field is required")
  else
    .ok (.zunion (.zoptional d2) (.zliteral ""))

/-- The `checkbox` case: required means `val === true`. -/
def checkboxBuilder (field : Field) : Zs :=
  let v := field.validation.getD {}
  if field.required then
    .zrefine .zboolean (fun val => val == .vbool true) (orDefault v.requiredMessage "Required")
  else .zboolean

/-- The `checklist` case: unlike the other two variants, the
`maxSelections` guard is `!== undefined`, so an explicit `0` is
enforced here. -/
def checklistBuilder (field : Field) : Zs :=
  let v := field.validation.getD {}
  let minSel := v.minSelections.getD (if field.required then 1 else 0)
  let lo := if minSel > 0 then
      some (minSel, orDefault v.requiredMessage s!"Select at least {minSel} option(s)")
    else none
  let hi := v.maxSelections.map (fun m => (m, s!"Select at most {m} option(s)"))
  .zarrayStr lo hi

/-- The `radio`/`select` case. -/
def radioBuilder (field : Field) : Zs :=
  let v := field.validation.getD {}
  if field.required then
    .zstring [.minLen 1 (orDefault v.requiredMessage "Please select an option")]
  else
    .zunion (.zoptional (.zstring [])) (.zliteral "")

/-- The `switch (field.type)` of `FormViewer.tsx` (its `default:` case
yields `z.any()`). -/
def buildFieldSchema (f : Field) : Except String Zs :=
  if f.ftype = "text" || f.ftype = "textarea" then .ok (getStringSchema f)
  else if f.ftype = "email" then .ok (emailBuilder f)
  else if f.ftype = "phone" then .ok (phoneBuilder f)
  else if f.ftype = "number" then .ok (numberBuilder f)
  else if f.ftype = "date" then dateBuilder f
  else if f.ftype = "checkbox" then .ok (checkboxBuilder f)
  else if f.ftype = "checklist" then .ok (checklistBuilder f)
  else if f.ftype = "radio" || f.ftype = "select" then .ok (radioBuilder f)
  else if f.ftype = "range" then .ok .znumber
  else if f.ftype = "min_max" then .ok .zobjMinMax
  else if f.ftype = "file" then .ok .zany
  else .ok .zany

/-- `buildZodSchema` (`FormViewer.tsx` lines 18-153): skip fields
without a truthy id, one shape entry per remaining field; a throwing
case propagates. -/
def buildZodSchema (fields : List Field) : Except String (List (String × Zs)) :=
  fields.foldlM
    (fun shape f =>
      if f.id ≠ "" then do
        let s ← buildFieldSchema f
        pure (setKey f.id s shape)
      else pure shape)
    []

end FV

/-! ## Default-value binding sites -/

/-- `FormViewer.tsx` default values (lines 501-520): per-field switch;
`range` uses `field.min ?? 0`; fields without a truthy id contribute
nothing. -/
def formViewerDefaultValues (fields : List Field) : List (String × Value) :=
  fields.foldl
    (fun values field =>
      if field.id ≠ "" then
        let v :=
          if field.ftype = "checkbox" then Value.vbool false
          else if field.ftype = "checklist" then Value.vlist []
          else if field.ftype = "range" then Value.vnum (field.min.getD 0)
          else if field.ftype = "min_max" then Value.vpair "" ""
          else Value.vstr ""
        setKey field.id v values
      else values)
    []

/-- `FormRender/index.tsx` default values (lines 71-74):
`Object.fromEntries(fields.map((f) => [f.id, getDefaultValue(f.type)]))`
— no id guard, `range` always gets `getDefaultValue`, i.e. `0`. -/
def formRenderDefaultValues (fields : List Field) : List (String × Value) :=
  fields.foldl
    (fun values f => setKey f.id (getDefaultValue f.ftype) values)
    []

/-- `ChecklistRender/index.tsx` default values: id-guarded
`getDefaultValue(field.type)`. -/
def checklistRenderDefaultValues (fields : List Field) : List (String × Value) :=
  fields.foldl
    (fun values field =>
      if field.id ≠ "" then setKey field.id (getDefaultValue field.ftype) values else values)
    []

/-! ## The schema stores

`store.ts` of the form builder and of the checklist builder are
line-for-line the same algorithm over the same document shape, against
`localStorage` under different keys.  The persisted blob is modelled by
its parse outcome: either a well-formed list of documents or malformed
data on which `JSON.parse` throws; `none` is an absent key.  `JSON`
serialization of well-formed documents is the identity in this model. -/

/-- `FormSchema` / `ChecklistSchema`: `{id, name, description?, fields}`. -/
structure SchemaDoc where
  id : String
  name : String
  description : Option String := none
  fields : List Field
  deriving DecidableEq, Repr

/-- The raw `localStorage` item as the parser sees it. -/
inductive StoredBlob where
  | docs (l : List SchemaDoc)
  | corrupt
  deriving DecidableEq, Repr

/-- `JSON.parse` on the stored item: throws (models the catch arm) on
malformed data. -/
def parseBlob : StoredBlob → Except String (List SchemaDoc)
  | .docs l => .ok l
  | .corrupt => .error "SyntaxError: Unexpected token"

/-- JavaScript `Array.prototype.findIndex` (as an option instead of
`-1`). -/
def jsFindIndex {α : Type} (p : α → Bool) : List α → Option Nat
  | [] => none
  | a :: l => if p a then some 0 else (jsFindIndex p l).map (· + 1)

namespace FormStore

/-- `getForms`: parse the stored item, catching parse errors to an empty
list and a console log; also returns the log lines it emitted. -/
def getForms (st : Option StoredBlob) : List SchemaDoc × List String :=
  match st with
  | none => ([], [])
  | some b =>
    match parseBlob b with
    | .ok l => (l, [])
    | .error _ => ([], ["Failed to load forms"])

/-- `getForm`: first stored document with the given id. -/
def getForm (id : String) (st : Option StoredBlob) : Option SchemaDoc :=
  (getForms st).1.find? (fun f => f.id == id)

/-- `saveForm`: replace the first document with the same id, else
append; writes the whole list back. -/
def saveForm (form : SchemaDoc) (st : Option StoredBlob) : Option StoredBlob :=
  let forms := (getForms st).1
  some (.docs
    (match jsFindIndex (fun f => f.id == form.id) forms with
     | some i => forms.set i form
     | none => forms ++ [form]))

/-- `deleteForm`. -/
def deleteForm (id : String) (st : Option StoredBlob) : Option StoredBlob :=
  some (.docs ((getForms st).1.filter (fun f => f.id != id)))

end FormStore

namespace ChecklistStore

/-- `getChecklists` (checklist `store.ts`). -/
def getChecklists (st : Option StoredBlob) : List SchemaDoc × List String :=
  match st with
  | none => ([], [])
  | some b =>
    match parseBlob b with
    | .ok l => (l, [])
    | .error _ => ([], ["Failed to load checklists"])

/-- `getChecklist`. -/
def getChecklist (id : String) (st : Option StoredBlob) : Option SchemaDoc :=
  (getChecklists st).1.find? (fun c => c.id == id)

/-- `saveChecklist`. -/
def saveChecklist (checklist : SchemaDoc) (st : Option StoredBlob) : Option StoredBlob :=
  let checklists := (getChecklists st).1
  some (.docs
    (match jsFindIndex (fun c => c.id == checklist.id) checklists with
     | some i => checklists.set i checklist
     | none => checklists ++ [checklist]))

/-- `deleteChecklist`. -/
def deleteChecklist (id : String) (st : Option StoredBlob) : Option StoredBlob :=
  some (.docs ((getChecklists st).1.filter (fun c => c.id != id)))

end ChecklistStore

/-! ## File-upload selection logic

`addFiles` of the two `FileUpload` components.  The result is the
post-action stored selection (`none` when the react-hook-form value was
never set) together with the user-facing messages raised (toast/alert).
An early `return` leaves the stored selection untouched. -/

namespace FormUpload

/-- `addFiles` from the form-variant `FileUpload` (`part_007`). -/
def addFiles (field : Field) (value : Option (List JsFile)) (newFiles : Option (List JsFile)) :
    Option (List JsFile) × List String :=
  match newFiles with
  | none => (value, [])
  | some nf =>
    if nf.isEmpty then (value, [])
    else
      let existingLen := (value.map List.length).getD 0
      let mf := field.maxFiles.getD 0
      if natTruthy field.maxFiles && existingLen + nf.length > mf then
        (value, [s!"Maximum {mf} file(s) allowed"])
      else
        (some (value.getD [] ++ nf), [])

/-- `removeFile`: drop the entry at `index`, keeping the rest in
order. -/
def removeFile (value : Option (List JsFile)) (index : Nat) : List JsFile :=
  match value with
  | none => []
  | some fs => (fs.enum.filter (fun p => p.1 ≠ index)).map Prod.snd

end FormUpload

namespace ChecklistUpload

/-- `isFileAccepted` from the checklist-variant `FileUpload`
(`part_004`). -/
def isFileAccepted (field : Field) (file : JsFile) : Bool :=
  let acceptedTypes := field.acceptedFileTypes.getD []
  if acceptedTypes.isEmpty then true
  else acceptedTypes.any fun t =>
    if t.endsWith "/*" then
      file.ftype.startsWith (((t.splitOn "/").headD "") ++ "/")
    else if t.contains ',' then
      (t.splitOn ",").any (fun x => (file.name.toLower).endsWith (x.trim.toLower))
    else if t.startsWith "." then
      (file.name.toLower).endsWith t.toLower
    else file.ftype == t

/-- `addFiles` from the checklist-variant `FileUpload` (`part_004`):
type-filter first (with an alert when some were dropped), then the
max-files check against the surviving files, then append. -/
def addFiles (field : Field) (value : Option (List JsFile)) (newFiles : Option (List JsFile)) :
    Option (List JsFile) × List String :=
  match newFiles with
  | none => (value, [])
  | some nf =>
    if nf.isEmpty then (value, [])
    else
      let validFiles := nf.filter (isFileAccepted field)
      let typesLabel := orDefault ((field.acceptedFileTypes).map (String.intercalate ", ")) "All"
      let msgs1 :=
        if validFiles.length < nf.length then
          [s!"Some files were rejected. Accepted types: {typesLabel}"]
        else []
      if validFiles.length < nf.length && validFiles.isEmpty then (value, msgs1)
      else
        let existingCount := (value.map List.length).getD 0
        let totalCount := existingCount + validFiles.length
        let mf := field.maxFiles.getD 0
        if natTruthy field.maxFiles && totalCount > mf then
          let remaining : Int := (mf : Int) - existingCount
          let msg :=
            if remaining ≤ 0 then
              s!"Maximum {mf} file(s) allowed. Please remove existing files before adding new ones."
            else
              s!"You can only add {remaining} more file(s). Maximum limit is {mf} file(s)."
          (value, msgs1 ++ [msg])
        else
          (some (value.getD [] ++ validFiles), msgs1)

/-- `removeFile` (checklist variant, same algorithm). -/
def removeFile (value : Option (List JsFile)) (index : Nat) : List JsFile :=
  match value with
  | none => []
  | some fs => (fs.enum.filter (fun p => p.1 ≠ index)).map Prod.snd

end ChecklistUpload

/-! ## Observers used by the statements below -/

/-- Issues reported by the checklist-variant compiled validator of one
field on one live value (`none` when compiling that field throws). -/
def CB.parseCompiled (f : Field) (v : Value) : Option (List String) :=
  match CB.buildFieldSchema f with
  | .ok z => some ((zparse z v).issues)
  | .error _ => none

/-- Issues reported by the form-variant compiled validator of one field
on one live value. -/
def FB.parseCompiled (f : Field) (v : Value) : List String :=
  (zparse (FB.buildFieldSchema f) v).issues

/-- The last field of the list carrying a given id (JavaScript object
assignment lets later fields win). -/
def lastWithId : List Field → String → Option Field
  | [], _ => none
  | f :: rest, k =>
    match lastWithId rest k with
    | some g => some g
    | none => if f.id == k then some f else none

/-- `z.object(shape).parse(values)`: each shape entry validates the
value stored under its key (`undefined` when absent); keys of `values`
without a shape entry are stripped and never consulted. -/
def validateShape (shape : List (String × Zs)) (values : List (String × Value)) :
    List (String × List String) :=
  shape.map (fun p => (p.1, (zparse p.2 ((getKey p.1 values).getD .vundef)).issues))

/-! ## Helper lemmas -/

theorem getKey_setKey_same {α : Type} (k : String) (v : α) (l : List (String × α)) :
    getKey k (setKey k v l) = some v := by
  induction l with
  | nil => simp [setKey, getKey]
  | cons a rest ih =>
    by_cases h : a.1 == k <;> simp [setKey, getKey, h, ih]

theorem getKey_setKey_ne {α : Type} (k k' : String) (v : α) (l : List (String × α))
    (h : k' ≠ k) : getKey k (setKey k' v l) = getKey k l := by
  induction l with
  | nil => simp [setKey, getKey, h]
  | cons a rest ih =>
    by_cases ha : (a.1 == k') = true
    · have ha' : a.1 = k' := by simpa using ha
      have h2 : (a.1 == k) = false := by simp [ha', h]
      simp [setKey, getKey, ha, h, h2]
    · simp [setKey, getKey, ha, ih]

/-- The first-matching-id replacement of `saveForm`/`saveChecklist`
followed by the first-matching-id lookup of `getForm`/`getChecklist`
finds the saved document. -/
theorem find_after_put (d : SchemaDoc) (l : List SchemaDoc) :
    (match jsFindIndex (fun f : SchemaDoc => f.id == d.id) l with
      | some i => l.set i d
      | none => l ++ [d]).find? (fun f : SchemaDoc => f.id == d.id) = some d := by
  induction l with
  | nil => simp [jsFindIndex]
  | cons c rest ih =>
    cases hcb : c.id == d.id with
    | true =>
      simp [jsFindIndex, hcb]
    | false =>
      simp only [jsFindIndex, hcb, Bool.false_eq_true, if_false]
      cases hr : jsFindIndex (fun f : SchemaDoc => f.id == d.id) rest with
      | none =>
        rw [hr] at ih
        simp only [Option.map_none', List.cons_append]
        rw [List.find?_cons_of_neg _ (by simp [hcb])]
        simpa using ih
      | some i =>
        rw [hr] at ih
        simp only [Option.map_some', List.set_cons_succ]
        rw [List.find?_cons_of_neg _ (by simp [hcb])]
        simpa using ih

theorem keys_setKey_mem {α : Type} (x k : String) (v : α) (l : List (String × α)) :
    x ∈ (setKey k v l).map Prod.fst ↔ x = k ∨ x ∈ l.map Prod.fst := by
  induction l with
  | nil => simp [setKey]
  | cons a rest ih =>
    by_cases h : (a.1 == k) = true
    · have h' : a.1 = k := by simpa using h
      simp [setKey, h, h']
    · simp [setKey, h, ih]
      tauto

theorem nodup_keys_setKey {α : Type} (k : String) (v : α) (l : List (String × α))
    (h : (l.map Prod.fst).Nodup) : ((setKey k v l).map Prod.fst).Nodup := by
  induction l with
  | nil => simp [setKey]
  | cons a rest ih =>
    simp only [List.map_cons, List.nodup_cons] at h
    by_cases hb : (a.1 == k) = true
    · have hb' : a.1 = k := by simpa using hb
      simp only [setKey, hb, if_true, List.map_cons, List.nodup_cons]
      exact ⟨hb' ▸ h.1, h.2⟩
    · have hb' : a.1 ≠ k := by simpa using hb
      simp only [setKey, hb, Bool.false_eq_true, if_false, List.map_cons, List.nodup_cons]
      refine ⟨?_, ih h.2⟩
      rw [keys_setKey_mem]
      push_neg
      exact ⟨hb', h.1⟩

theorem getKey_eq_none {α : Type} (k : String) (l : List (String × α)) :
    getKey k l = none ↔ k ∉ l.map Prod.fst := by
  induction l with
  | nil => simp [getKey]
  | cons a rest ih =>
    by_cases h : (a.1 == k) = true
    · have h' : a.1 = k := by simpa using h
      simp [getKey, h, h']
    · have h' : k ≠ a.1 := by
        intro e
        exact absurd (by simp [e]) h
      simp [getKey, h, ih, h']

/-- Lookup in the shape accumulated by the form-variant `buildZodSchema`
fold: the last field with the (nonempty) key wins; keys never touched by
the fold keep their binding from the initial accumulator. -/
theorem getKey_fb_fold (fields : List Field) (init : List (String × Zs)) (k : String) :
    getKey k
        (fields.foldl
          (fun shape f =>
            if f.id ≠ "" then setKey f.id (FB.buildFieldSchema f) shape else shape)
          init) =
      (if k = "" then getKey k init
       else
        match lastWithId fields k with
        | some g => some (FB.buildFieldSchema g)
        | none => getKey k init) := by
  induction fields generalizing init with
  | nil => cases h : decide (k = "") <;> simp_all [lastWithId]
  | cons f rest ih =>
    rw [List.foldl_cons, ih]
    by_cases hk : k = ""
    · simp only [hk, if_true]
      by_cases hid : f.id = ""
      · simp [hid]
      · simp [hid, getKey_setKey_ne _ _ _ _ (fun e => hid (e.trans rfl))]
    · simp only [hk, if_false]
      cases hr : lastWithId rest k with
      | some g => simp [lastWithId, hr]
      | none =>
        simp only [lastWithId, hr]
        by_cases hf : (f.id == k) = true
        · have hf' : f.id = k := by simpa using hf
          have hne : f.id ≠ "" := hf' ▸ hk
          simp [hf, hne, hf', hk, getKey_setKey_same]
        · have hf' : f.id ≠ k := by simpa using hf
          by_cases hid : f.id = ""
          · simp [hf, hid, Ne.symm hk]
          · simp [hf, hid, getKey_setKey_ne _ _ _ _ hf']

/-- The form-variant fold keeps the shape keys duplicate-free. -/
theorem nodup_keys_fb_fold (fields : List Field) (init : List (String × Zs))
    (h : (init.map Prod.fst).Nodup) :
    ((fields.foldl
        (fun shape f =>
          if f.id ≠ "" then setKey f.id (FB.buildFieldSchema f) shape else shape)
        init).map Prod.fst).Nodup := by
  induction fields generalizing init with
  | nil => simpa using h
  | cons f rest ih =>
    rw [List.foldl_cons]
    apply ih
    by_cases hid : f.id = ""
    · simpa [hid] using h
    · simpa [hid] using nodup_keys_setKey f.id (FB.buildFieldSchema f) init h

/-- When a fallible shape fold (the checklist variant's or the
form-builder viewer's `buildZodSchema`, abstracted over the per-field
builder `b`) returns at all, it preserves absence of the empty key and
duplicate-freedom of the keys. -/
theorem exc_fold_ok_preserves (b : Field → Except String Zs) (fields : List Field)
    (init shape : List (String × Zs))
    (h : (List.foldlM
        (fun shape f =>
          if f.id ≠ "" then do
            let s ← b f
            pure (setKey f.id s shape)
          else pure shape)
        init fields) = .ok shape)
    (h1 : getKey "" init = none) (h2 : (init.map Prod.fst).Nodup) :
    getKey "" shape = none ∧ (shape.map Prod.fst).Nodup := by
  induction fields generalizing init with
  | nil =>
    simp only [List.foldlM_nil, pure, Except.pure, Except.ok.injEq] at h
    exact h ▸ ⟨h1, h2⟩
  | cons f rest ih =>
    rw [List.foldlM_cons] at h
    by_cases hid : f.id = ""
    · simp only [hid, ne_eq, not_true_eq_false, if_false, pure, Except.pure] at h
      exact ih init (by simpa [Bind.bind, Except.bind] using h) h1 h2
    · cases hb : b f with
      | error e =>
        rw [if_pos hid] at h
        simp [hb, Bind.bind, Except.bind] at h
      | ok s =>
        rw [if_pos hid] at h
        exact ih (setKey f.id s init)
          (by simpa [hb, Bind.bind, Except.bind, pure, Except.pure] using h)
          (by rw [getKey_setKey_ne _ _ _ _ hid]; exact h1)
          (nodup_keys_setKey _ _ _ h2)

/-- Lookup in the shape returned by a successful fallible fold: the last
field carrying the (nonempty) key wins, with the validator its builder
returned; untouched keys keep their initial binding. -/
theorem getKey_exc_fold_ok (b : Field → Except String Zs) (fields : List Field)
    (init shape : List (String × Zs)) (k : String) (hk : k ≠ "")
    (h : (List.foldlM
        (fun shape f =>
          if f.id ≠ "" then do
            let s ← b f
            pure (setKey f.id s shape)
          else pure shape)
        init fields) = .ok shape) :
    getKey k shape =
      (match lastWithId fields k with
       | some g => (b g).toOption
       | none => getKey k init) := by
  induction fields generalizing init with
  | nil =>
    simp only [List.foldlM_nil, pure, Except.pure, Except.ok.injEq] at h
    subst h
    simp [lastWithId]
  | cons f rest ih =>
    rw [List.foldlM_cons] at h
    by_cases hid : f.id = ""
    · simp only [hid, ne_eq, not_true_eq_false, if_false, pure, Except.pure] at h
      rw [ih init (by simpa [Bind.bind, Except.bind] using h)]
      cases hr : lastWithId rest k with
      | none => simp [lastWithId, hr, hid, Ne.symm hk]
      | some g => simp [lastWithId, hr]
    · cases hb : b f with
      | error e =>
        rw [if_pos hid] at h
        simp [hb, Bind.bind, Except.bind] at h
      | ok s =>
        rw [if_pos hid] at h
        rw [ih (setKey f.id s init)
          (by simpa [hb, Bind.bind, Except.bind, pure, Except.pure] using h)]
        cases hr : lastWithId rest k with
        | none =>
          simp only [lastWithId, hr]
          by_cases hf : (f.id == k) = true
          · have hf' : f.id = k := by simpa using hf
            simp [hf, hf', getKey_setKey_same, hb, Except.toOption]
          · have hf' : f.id ≠ k := by simpa using hf
            simp [hf, getKey_setKey_ne _ _ _ _ hf']
        | some g => simp [lastWithId, hr]

/-- A successful fallible fold means every builder it ran returned: each
field with a nonempty id compiled to a validator. -/
theorem exc_fold_ok_builders (b : Field → Except String Zs) (fields : List Field)
    (init shape : List (String × Zs))
    (h : (List.foldlM
        (fun shape f =>
          if f.id ≠ "" then do
            let s ← b f
            pure (setKey f.id s shape)
          else pure shape)
        init fields) = .ok shape) :
    ∀ g ∈ fields, g.id ≠ "" → ∃ s, b g = .ok s := by
  induction fields generalizing init with
  | nil => simp
  | cons f rest ih =>
    rw [List.foldlM_cons] at h
    intro g hg hgid
    rcases List.mem_cons.mp hg with rfl | hg'
    · cases hb : b g with
      | error e =>
        rw [if_pos hgid] at h
        simp [hb, Bind.bind, Except.bind] at h
      | ok s => exact ⟨s, rfl⟩
    · by_cases hid : f.id = ""
      · simp only [hid, ne_eq, not_true_eq_false, if_false, pure, Except.pure] at h
        exact ih init (by simpa [Bind.bind, Except.bind] using h) g hg' hgid
      · cases hb : b f with
        | error e =>
          rw [if_pos hid] at h
          simp [hb, Bind.bind, Except.bind] at h
        | ok s =>
          rw [if_pos hid] at h
          exact ih (setKey f.id s init)
            (by simpa [hb, Bind.bind, Except.bind, pure, Except.pure] using h) g hg' hgid

/-- A value stored under a key without a shape entry is never consulted
by object validation. -/
theorem validateShape_extra_key (shape : List (String × Zs)) (values : List (String × Value))
    (id : String) (v : Value) (h : getKey id shape = none) :
    validateShape shape (setKey id v values) = validateShape shape values := by
  unfold validateShape
  apply List.map_congr_left
  intro p hp
  have hid : p.1 ≠ id := by
    intro e
    exact (getKey_eq_none id shape).mp h (e ▸ List.mem_map_of_mem Prod.fst hp)
  rw [getKey_setKey_ne _ _ _ _ (fun e => hid e.symm)]

/-! ## Claim theorems -/

/-- C10 counterexample: the claim quantifies over every field list, but
for a list containing a required date field with a date rule the
checklist-variant `buildZodSchema` throws and produces no validator
object at all, so it does not give the object an entry for the field's
nonempty id. -/
theorem shape_missing_when_compilation_throws :
    CB.buildZodSchema
        [⟨"d9", "date", "Deadline", true, none, none, none, none, none, none, none,
          some { maxDate := some "2025-12-31" }⟩] =
      .error "TypeError: dateSchema.min is not a function" := by
  simp [CB.buildZodSchema, CB.buildFieldSchema, CB.schemaBuilderFor, CB.dateBuilder,
    CB.zsMin, strTruthy]

/-- C10 amended: whenever `buildZodSchema` returns a validator object —
the form variant always does, the checklist variant and the
`FormViewer.tsx` variant unless a field's builder throws — the object
holds exactly one entry per distinct nonempty field id (every such field
compiled and is looked up under its id, keys are duplicate-free, and the
last of two fields sharing an id wins), no entry for an empty or missing
id, and a live value under an id without an entry is stripped and can
never cause a validation failure. -/
theorem shape_one_entry_per_nonempty_id_amended (fields : List Field) (k : String) :
    (k ≠ "" → getKey k (FB.buildZodSchema fields) =
      (lastWithId fields k).map (fun g => FB.buildFieldSchema g)) ∧
    getKey "" (FB.buildZodSchema fields) = none ∧
    ((FB.buildZodSchema fields).map Prod.fst).Nodup ∧
    (∀ (values : List (String × Value)) (v : Value),
      getKey k (FB.buildZodSchema fields) = none →
      validateShape (FB.buildZodSchema fields) (setKey k v values) =
        validateShape (FB.buildZodSchema fields) values) ∧
    (∀ shape, CB.buildZodSchema fields = .ok shape →
      (k ≠ "" → getKey k shape =
        (match lastWithId fields k with
         | some g => (CB.buildFieldSchema g).toOption
         | none => none)) ∧
      (∀ g ∈ fields, g.id ≠ "" → ∃ s, CB.buildFieldSchema g = .ok s) ∧
      getKey "" shape = none ∧
      ((shape.map Prod.fst).Nodup) ∧
      (∀ (values : List (String × Value)) (v : Value), getKey k shape = none →
        validateShape shape (setKey k v values) = validateShape shape values)) ∧
    (∀ shape, FV.buildZodSchema fields = .ok shape →
      (k ≠ "" → getKey k shape =
        (match lastWithId fields k with
         | some g => (FV.buildFieldSchema g).toOption
         | none => none)) ∧
      (∀ g ∈ fields, g.id ≠ "" → ∃ s, FV.buildFieldSchema g = .ok s) ∧
      getKey "" shape = none ∧
      ((shape.map Prod.fst).Nodup) ∧
      (∀ (values : List (String × Value)) (v : Value), getKey k shape = none →
        validateShape shape (setKey k v values) = validateShape shape values)) := by
  refine ⟨fun hk => ?_, ?_, ?_, fun values v h => ?_, fun shape h => ?_, fun shape h => ?_⟩
  · rw [FB.buildZodSchema, getKey_fb_fold fields [] k]
    simp only [hk, if_false]
    cases lastWithId fields k <;> simp [getKey]
  · rw [FB.buildZodSchema, getKey_fb_fold fields [] ""]
    simp [getKey]
  · exact nodup_keys_fb_fold fields [] (by simp)
  · exact validateShape_extra_key _ values k v h
  · have h' : (List.foldlM
        (fun shape f =>
          if f.id ≠ "" then do
            let s ← CB.buildFieldSchema f
            pure (setKey f.id s shape)
          else pure shape)
        [] fields) = .ok shape := h
    have hpres := exc_fold_ok_preserves CB.buildFieldSchema fields [] shape h'
      (by simp [getKey]) (by simp)
    refine ⟨fun hk => ?_, exc_fold_ok_builders CB.buildFieldSchema fields [] shape h',
      hpres.1, hpres.2, fun values v hnone => validateShape_extra_key _ values k v hnone⟩
    rw [getKey_exc_fold_ok CB.buildFieldSchema fields [] shape k hk h']
    cases lastWithId fields k <;> simp [getKey]
  · have h' : (List.foldlM
        (fun shape f =>
          if f.id ≠ "" then do
            let s ← FV.buildFieldSchema f
            pure (setKey f.id s shape)
          else pure shape)
        [] fields) = .ok shape := h
    have hpres := exc_fold_ok_preserves FV.buildFieldSchema fields [] shape h'
      (by simp [getKey]) (by simp)
    refine ⟨fun hk => ?_, exc_fold_ok_builders FV.buildFieldSchema fields [] shape h',
      hpres.1, hpres.2, fun values v hnone => validateShape_extra_key _ values k v hnone⟩
    rw [getKey_exc_fold_ok FV.buildFieldSchema fields [] shape k hk h']
    cases lastWithId fields k <;> simp [getKey]

/-- C10 witness: the amended theorem at a two-field list sharing the id
`"x"` (the later select field's validator overwrites the earlier text
field's) plus a field with an empty id (no entry), for the form variant;
and at a concrete successful checklist-variant compilation, where the
lookup under `"x"` is the later field's compiled validator. -/
theorem shape_one_entry_per_nonempty_id_amended_witness :
    getKey "x"
        (FB.buildZodSchema
          [⟨"x", "text", "A", false, none, none, none, none, none, none, none, none⟩,
            ⟨"", "text", "B", false, none, none, none, none, none, none, none, none⟩,
            ⟨"x", "select", "C", true, some ["u", "v"], none, none, none, none, none, none,
              none⟩]) =
      some (FB.buildFieldSchema
        ⟨"x", "select", "C", true, some ["u", "v"], none, none, none, none, none, none,
          none⟩) ∧
    getKey ""
        (FB.buildZodSchema
          [⟨"x", "text", "A", false, none, none, none, none, none, none, none, none⟩,
            ⟨"", "text", "B", false, none, none, none, none, none, none, none, none⟩,
            ⟨"x", "select", "C", true, some ["u", "v"], none, none, none, none, none, none,
              none⟩]) = none ∧
    CB.buildZodSchema
        [⟨"x", "text", "A", false, none, none, none, none, none, none, none, none⟩,
          ⟨"x", "select", "C", true, some ["u", "v"], none, none, none, none, none, none,
            none⟩] =
      .ok [("x", Zs.zstring [StrCheck.minLen 1 "Please select an option"])] ∧
    getKey "x" [("x", Zs.zstring [StrCheck.minLen 1 "Please select an option"])] =
      (CB.buildFieldSchema
        ⟨"x", "select", "C", true, some ["u", "v"], none, none, none, none, none, none,
          none⟩).toOption := by
  refine ⟨?_, ?_, rfl, ?_⟩
  · have h := (shape_one_entry_per_nonempty_id_amended
      [⟨"x", "text", "A", false, none, none, none, none, none, none, none, none⟩,
        ⟨"", "text", "B", false, none, none, none, none, none, none, none, none⟩,
        ⟨"x", "select", "C", true, some ["u", "v"], none, none, none, none, none, none,
          none⟩] "x").1 (by decide)
    rw [h]
    simp [lastWithId]
  · exact (shape_one_entry_per_nonempty_id_amended
      [⟨"x", "text", "A", false, none, none, none, none, none, none, none, none⟩,
        ⟨"", "text", "B", false, none, none, none, none, none, none, none, none⟩,
        ⟨"x", "select", "C", true, some ["u", "v"], none, none, none, none, none, none,
          none⟩] "x").2.1
  · have h := ((shape_one_entry_per_nonempty_id_amended
      [⟨"x", "text", "A", false, none, none, none, none, none, none, none, none⟩,
        ⟨"x", "select", "C", true, some ["u", "v"], none, none, none, none, none, none,
          none⟩] "x").2.2.2.2.1
      [("x", Zs.zstring [StrCheck.minLen 1 "Please select an option"])] rfl).1 (by decide)
    rw [h]
    simp [lastWithId]

/-- C5 counterexample: `maxSelections` is enforced through a JavaScript
truthiness test, so an explicitly set `maxSelections = 0` is ignored: a
selection of one option (longer than the set maximum) passes, where the
claim says it must fail. -/
theorem checklist_max_zero_not_enforced :
    CB.parseCompiled
      ⟨"c1", "checklist", "Pick", false, none, none, none, none, none, none, none,
        some { maxSelections := some 0 }⟩
      (.vlist ["Option 1"]) = some [] := by
  simp [CB.parseCompiled, CB.buildFieldSchema, CB.schemaBuilderFor, CB.checklistBuilder,
    natTruthy, zparse]

/-- C5 amended: a checklist selection passes exactly when its length is
at least `minSelections ?? (required ? 1 : 0)` and, whenever
`maxSelections` is set to a nonzero value (a zero value is falsy and so
unenforced), at most `maxSelections` — in both compiler variants. -/
theorem checklist_selection_bounds_amended (f : Field) (hty : f.ftype = "checklist")
    (xs : List String) :
    (CB.parseCompiled f (.vlist xs) = some [] ↔
      ((f.validation.getD {}).minSelections.getD (if f.required then 1 else 0) ≤ xs.length ∧
        (natTruthy (f.validation.getD {}).maxSelections = true →
          xs.length ≤ (f.validation.getD {}).maxSelections.getD 0))) ∧
    (FB.parseCompiled f (.vlist xs) = [] ↔
      ((f.validation.getD {}).minSelections.getD (if f.required then 1 else 0) ≤ xs.length ∧
        (natTruthy (f.validation.getD {}).maxSelections = true →
          xs.length ≤ (f.validation.getD {}).maxSelections.getD 0))) := by
  constructor <;>
    · by_cases hm0 :
          0 < (f.validation.getD {}).minSelections.getD (if f.required then 1 else 0) <;>
        by_cases h1 :
            xs.length <
              (f.validation.getD {}).minSelections.getD (if f.required then 1 else 0) <;>
          by_cases hmax : natTruthy (f.validation.getD {}).maxSelections = true <;>
            by_cases h2 : (f.validation.getD {}).maxSelections.getD 0 < xs.length <;>
              simp [CB.parseCompiled, CB.buildFieldSchema, CB.schemaBuilderFor,
                CB.checklistBuilder, FB.parseCompiled, FB.buildFieldSchema,
                FB.schemaBuilderFor, FB.checklistBuilder, hty, hm0, h1, hmax, h2,
                zparse] <;>
                omega

/-- C5 witness: a required checklist field with no explicit
`minSelections` rejects an empty selection and accepts a single one. -/
theorem checklist_selection_bounds_amended_witness :
    CB.parseCompiled
        ⟨"c2", "checklist", "Pick", true, none, none, none, none, none, none, none, none⟩
        (.vlist []) ≠ some [] ∧
      CB.parseCompiled
        ⟨"c2", "checklist", "Pick", true, none, none, none, none, none, none, none, none⟩
        (.vlist ["Option 1"]) = some [] := by
  have h0 := (checklist_selection_bounds_amended
    ⟨"c2", "checklist", "Pick", true, none, none, none, none, none, none, none, none⟩
    rfl ([] : List String)).1
  have h1 := (checklist_selection_bounds_amended
    ⟨"c2", "checklist", "Pick", true, none, none, none, none, none, none, none, none⟩
    rfl ["Option 1"]).1
  constructor
  · intro hc
    have hr := h0.mp hc
    revert hr
    decide
  · exact h1.mpr (by decide)

/-- C4: a non-required email field accepts the empty string (the
explicit `z.literal('')` escape hatch), rejects a malformed non-empty
address with exactly the email-format message, and accepts a well-formed
address — in both compiler variants. -/
theorem email_optional_empty_escape (f : Field) (hty : f.ftype = "email")
    (hreq : f.required = false) :
    CB.parseCompiled f (.vstr "") = some [] ∧
    CB.parseCompiled f (.vstr "not-an-email") =
      some [orDefault (f.validation.getD {}).patternMessage "Invalid email address"] ∧
    CB.parseCompiled f (.vstr "a@b.com") = some [] ∧
    FB.parseCompiled f (.vstr "") = [] ∧
    FB.parseCompiled f (.vstr "not-an-email") =
      [orDefault (f.validation.getD {}).patternMessage "Invalid email"] ∧
    FB.parseCompiled f (.vstr "a@b.com") = [] := by
  have hm1 : emailMatches "" = false := by decide
  have hm2 : emailMatches "not-an-email" = false := by decide
  have hm3 : emailMatches "a@b.com" = true := by decide
  refine ⟨?_, ?_, ?_, ?_, ?_, ?_⟩ <;>
    simp [CB.parseCompiled, CB.buildFieldSchema, CB.schemaBuilderFor, CB.emailBuilder,
      FB.parseCompiled, FB.buildFieldSchema, FB.schemaBuilderFor, FB.emailBuilder,
      hty, hreq, zparse, runStrCheck, hm1, hm2, hm3, ParseResult.isOk, ParseResult.ok]

/-- C3 counterexample: the shared `getDefaultValue` receives only the
field type, so the sessions bound through it (`FormRender`,
`ChecklistRender`) give a range field with `min = 5` the default `0`,
not `field.min` as the claim states. -/
theorem range_default_ignores_field_min :
    getKey "r1" (formRenderDefaultValues
      [⟨"r1", "range", "Score", false, none, none, none, some 5, some 10, some 1, none,
        none⟩]) = some (.vnum 0) := by
  simp [formRenderDefaultValues, getDefaultValue, setKey, getKey]

/-- C3 amended: the bound defaults are `false` for checkbox, `[]` for
checklist, `{min:"",max:""}` for `min_max` and `""` for every other
type; for range the form-builder viewer uses `field.min ?? 0` while the
sessions bound through the shared `getDefaultValue` (`FormRender`,
`ChecklistRender`) always use `0`. -/
theorem default_values_amended :
    (∀ t : String, t ≠ "checkbox" → t ≠ "checklist" → t ≠ "range" → t ≠ "min_max" →
      getDefaultValue t = .vstr "") ∧
    getDefaultValue "checkbox" = .vbool false ∧
    getDefaultValue "checklist" = .vlist [] ∧
    getDefaultValue "range" = .vnum 0 ∧
    getDefaultValue "min_max" = .vpair "" "" ∧
    (∀ f : Field, f.ftype = "range" → f.id ≠ "" →
      formViewerDefaultValues [f] = [(f.id, .vnum (f.min.getD 0))]) ∧
    (∀ f : Field, f.ftype = "range" →
      formRenderDefaultValues [f] = [(f.id, .vnum 0)]) ∧
    (∀ f : Field, f.ftype = "range" → f.id ≠ "" →
      checklistRenderDefaultValues [f] = [(f.id, .vnum 0)]) := by
  refine ⟨fun t h1 h2 h3 h4 => ?_, rfl, rfl, rfl, rfl, fun f hty hid => ?_,
    fun f hty => ?_, fun f hty hid => ?_⟩
  · simp [getDefaultValue, h1, h2, h3, h4]
  · simp [formViewerDefaultValues, hty, hid, setKey]
  · simp [formRenderDefaultValues, hty, getDefaultValue, setKey]
  · simp [checklistRenderDefaultValues, hty, hid, getDefaultValue, setKey]

/-- C3 witness: the amended theorem at a text field (empty-string
default) and at a concrete range field with `min = 5` in the
form-builder viewer (default `5`) and in `FormRender` (default `0`). -/
theorem default_values_amended_witness :
    getDefaultValue "text" = .vstr "" ∧
    formViewerDefaultValues
        [⟨"r2", "range", "Score", false, none, none, none, some 5, some 10, some 1, none,
          none⟩] = [("r2", .vnum 5)] ∧
    formRenderDefaultValues
        [⟨"r2", "range", "Score", false, none, none, none, some 5, some 10, some 1, none,
          none⟩] = [("r2", .vnum 0)] := by
  refine ⟨default_values_amended.1 "text" (by decide) (by decide) (by decide) (by decide),
    ?_, default_values_amended.2.2.2.2.2.2.1 _ rfl⟩
  have h := default_values_amended.2.2.2.2.2.1
    ⟨"r2", "range", "Score", false, none, none, none, some 5, some 10, some 1, none, none⟩
    rfl (by decide)
  simpa using h

/-- C6: the claim that compilation never throws is the documented
design, but the checklist-variant date builder reassigns its
`z.string()` to the result of `.refine` and then calls `.min` on it, a
method `ZodEffects` does not have — so compiling a required date field
that carries a `minDate` rule throws.  Unrecognized type tags, by
contrast, do get the always-pass validator in both variants. -/
theorem compilation_throws_on_required_dated_date :
    CB.buildZodSchema
        [⟨"d1", "date", "Date", true, none, none, none, none, none, none, none,
          some { minDate := some "2024-01-01" }⟩] =
      .error "TypeError: dateSchema.min is not a function" ∧
    CB.parseCompiled
        ⟨"u1", "signature", "Sign", true, none, none, none, none, none, none, none, none⟩
        (.vstr "anything") = some [] ∧
    FB.parseCompiled
        ⟨"u1", "signature", "Sign", true, none, none, none, none, none, none, none, none⟩
        (.vstr "anything") = [] := by
  refine ⟨?_, ?_, ?_⟩
  · simp [CB.buildZodSchema, CB.buildFieldSchema, CB.schemaBuilderFor, CB.dateBuilder,
      CB.zsMin, strTruthy]
  · simp [CB.parseCompiled, CB.buildFieldSchema, CB.schemaBuilderFor, zparse,
      ParseResult.ok]
  · simp [FB.parseCompiled, FB.buildFieldSchema, FB.schemaBuilderFor, zparse,
      ParseResult.ok]

/-- C7: saving a document and loading it back by id returns the very
document, for every prior store state (absent, well-formed with or
without a document of the same id, or corrupt), in both the form store
and the checklist store. -/
theorem save_then_load_roundtrip (d : SchemaDoc) (st : Option StoredBlob) :
    FormStore.getForm d.id (FormStore.saveForm d st) = some d ∧
    ChecklistStore.getChecklist d.id (ChecklistStore.saveChecklist d st) = some d := by
  constructor
  · show (FormStore.getForms (FormStore.saveForm d st)).1.find?
      (fun f => f.id == d.id) = some d
    have h := find_after_put d (FormStore.getForms st).1
    simpa [FormStore.saveForm, FormStore.getForms] using h
  · show (ChecklistStore.getChecklists (ChecklistStore.saveChecklist d st)).1.find?
      (fun c => c.id == d.id) = some d
    have h := find_after_put d (ChecklistStore.getChecklists st).1
    simpa [ChecklistStore.saveChecklist, ChecklistStore.getChecklists] using h

/-- C9: a malformed persisted blob is caught: both list loaders log the
failure and return the empty list instead of propagating the parse
exception. -/
theorem malformed_storage_returns_empty :
    FormStore.getForms (some .corrupt) = ([], ["Failed to load forms"]) ∧
    ChecklistStore.getChecklists (some .corrupt) = ([], ["Failed to load checklists"]) :=
  ⟨rfl, rfl⟩

/-- C8: when `maxFiles` is set (to a positive count, per the data
model), an add that would exceed it is rejected as a whole in both
upload components — the selection is left exactly as it was and a
user-facing message is raised — while an add within the limit appends. -/
theorem addfiles_over_limit_rejected (f : Field) (m : Nat) (hm : f.maxFiles = some m)
    (hm0 : m ≠ 0) (existing nf : List JsFile) (hnf : nf ≠ []) :
    (existing.length + nf.length > m →
      FormUpload.addFiles f (some existing) (some nf) =
        (some existing, [s!"Maximum {m} file(s) allowed"])) ∧
    (existing.length + nf.length ≤ m →
      FormUpload.addFiles f (some existing) (some nf) = (some (existing ++ nf), [])) ∧
    (nf.filter (ChecklistUpload.isFileAccepted f) ≠ [] →
      existing.length + (nf.filter (ChecklistUpload.isFileAccepted f)).length > m →
      (ChecklistUpload.addFiles f (some existing) (some nf)).1 = some existing ∧
      (ChecklistUpload.addFiles f (some existing) (some nf)).2 ≠ []) := by
  have hne : nf.isEmpty = false := by simpa [List.isEmpty_iff] using hnf
  have htr : natTruthy f.maxFiles = true := by simp [hm, natTruthy, hm0]
  refine ⟨fun hover => ?_, fun hunder => ?_, fun hvf hover => ?_⟩
  · simp [FormUpload.addFiles, hne, natTruthy, hm, hm0, hover]
  · have : ¬ (existing.length + nf.length > m) := by omega
    simp [FormUpload.addFiles, hne, natTruthy, hm, hm0, this]
  · have hvfe : (nf.filter (ChecklistUpload.isFileAccepted f)).isEmpty = false := by
      simpa [List.isEmpty_iff] using hvf
    constructor <;>
      by_cases hdrop :
          (nf.filter (ChecklistUpload.isFileAccepted f)).length < nf.length <;>
        simp [ChecklistUpload.addFiles, hne, natTruthy, hm, hm0, hover, hvfe, hdrop]

/-- C8 witness: with `maxFiles = 2` and two files already selected,
adding a third leaves the stored selection at the same two files and
raises the limit message. -/
theorem addfiles_over_limit_rejected_witness :
    FormUpload.addFiles
        ⟨"f1", "file", "Docs", false, none, none, some 2, none, none, none, none, none⟩
        (some [⟨"a.txt", 10, "text/plain"⟩, ⟨"b.txt", 20, "text/plain"⟩])
        (some [⟨"c.txt", 30, "text/plain"⟩]) =
      (some [⟨"a.txt", 10, "text/plain"⟩, ⟨"b.txt", 20, "text/plain"⟩],
        ["Maximum 2 file(s) allowed"]) := by
  have h := (addfiles_over_limit_rejected
    ⟨"f1", "file", "Docs", false, none, none, some 2, none, none, none, none, none⟩
    2 rfl (by decide)
    [⟨"a.txt", 10, "text/plain"⟩, ⟨"b.txt", 20, "text/plain"⟩]
    [⟨"c.txt", 30, "text/plain"⟩] (by decide)).1 (by decide)
  simpa using h

/-- C1 counterexample: for a required email field the required check
does not take precedence over the format check on the empty string — in
the checklist variant the email-format rule fires as well, and its
message even precedes the required message. -/
theorem required_empty_email_fires_format_rule :
    CB.parseCompiled
      ⟨"e1", "email", "Email", true, none, none, none, none, none, none, none, none⟩
      (.vstr "") = some ["Invalid email address", "This field is required"] := by
  have hm : emailMatches "" = false := by decide
  simp [CB.parseCompiled, CB.buildFieldSchema, CB.schemaBuilderFor, CB.emailBuilder,
    zparse, runStrCheck, hm, orDefault]

/-- C1 amended: on a required field the empty string yields exactly the
required-failure message (custom `requiredMessage` or the variant's
default) for radio/select, for text/textarea without a truthy
`minLength`, and for date (in the checklist variant only when no date
rule is set); for text/textarea with `minLength` the min-length message
precedes the required message; and for email/phone the format rule fires
too — after the required message in the form variant, before it in the
checklist variant. -/
theorem required_empty_value_messages_amended (f : Field) (hreq : f.required = true) :
    ((f.ftype = "radio" ∨ f.ftype = "select") →
      CB.parseCompiled f (.vstr "") =
        some [orDefault (f.validation.getD {}).requiredMessage "Please select an option"] ∧
      FB.parseCompiled f (.vstr "") =
        [orDefault (f.validation.getD {}).requiredMessage "Select an option"]) ∧
    ((f.ftype = "text" ∨ f.ftype = "textarea") →
      natTruthy (f.validation.getD {}).minLength = false →
      CB.parseCompiled f (.vstr "") =
        some [orDefault (f.validation.getD {}).requiredMessage "This field is required"] ∧
      FB.parseCompiled f (.vstr "") =
        [orDefault (f.validation.getD {}).requiredMessage "This field is required."]) ∧
    ((f.ftype = "text" ∨ f.ftype = "textarea") →
      ∀ n : Nat, (f.validation.getD {}).minLength = some n → n ≠ 0 →
      CB.parseCompiled f (.vstr "") =
        some [s!"Minimum {n} characters",
          orDefault (f.validation.getD {}).requiredMessage "This field is required"] ∧
      FB.parseCompiled f (.vstr "") =
        [s!"Minimum {n} characters",
          orDefault (f.validation.getD {}).requiredMessage "This field is required."]) ∧
    (f.ftype = "date" →
      FB.parseCompiled f (.vstr "") =
        [orDefault (f.validation.getD {}).requiredMessage "This field is required."] ∧
      (strTruthy (f.validation.getD {}).minDate = false →
        strTruthy (f.validation.getD {}).maxDate = false →
        CB.parseCompiled f (.vstr "") =
          some [orDefault (f.validation.getD {}).requiredMessage "This field is required"])) ∧
    (f.ftype = "email" →
      CB.parseCompiled f (.vstr "") =
        some [orDefault (f.validation.getD {}).patternMessage "Invalid email address",
          orDefault (f.validation.getD {}).requiredMessage "This field is required"] ∧
      FB.parseCompiled f (.vstr "") =
        [orDefault (f.validation.getD {}).requiredMessage "This field is required.",
          orDefault (f.validation.getD {}).patternMessage "Invalid email"]) ∧
    (f.ftype = "phone" →
      CB.parseCompiled f (.vstr "") =
        some [orDefault (f.validation.getD {}).patternMessage "Invalid phone number",
          orDefault (f.validation.getD {}).requiredMessage "This field is required"] ∧
      FB.parseCompiled f (.vstr "") =
        [orDefault (f.validation.getD {}).requiredMessage "This field is required.",
          orDefault (f.validation.getD {}).patternMessage "Invalid phone"]) := by
  have hm : emailMatches "" = false := by decide
  have hp : phoneMatches "" = false := by decide
  refine ⟨fun hty => ?_, fun hty hmin => ?_, fun hty n hn hn0 => ?_, fun hty => ?_,
    fun hty => ?_, fun hty => ?_⟩
  · rcases hty with hty | hty <;>
      constructor <;>
        simp [CB.parseCompiled, CB.buildFieldSchema, CB.schemaBuilderFor, CB.radioBuilder,
          FB.parseCompiled, FB.buildFieldSchema, FB.schemaBuilderFor, FB.radioBuilder,
          hty, hreq, zparse, runStrCheck]
  · rcases hty with hty | hty <;>
      by_cases hmax : natTruthy (f.validation.getD {}).maxLength = true <;>
        constructor <;>
          simp [CB.parseCompiled, CB.buildFieldSchema, CB.schemaBuilderFor, CB.getStringSchema,
            FB.parseCompiled, FB.buildFieldSchema, FB.schemaBuilderFor, FB.getStringSchema,
            hty, hreq, hmin, hmax, zparse, runStrCheck]
  · have hmin : natTruthy (f.validation.getD {}).minLength = true := by
      simp [natTruthy, hn, hn0]
    have hgd : (f.validation.getD {}).minLength.getD 0 = n := by simp [hn]
    have h0n : (0 : Nat) < n := Nat.pos_of_ne_zero hn0
    rcases hty with hty | hty <;>
      by_cases hmax : natTruthy (f.validation.getD {}).maxLength = true <;>
        constructor <;>
          simp [CB.parseCompiled, CB.buildFieldSchema, CB.schemaBuilderFor, CB.getStringSchema,
            FB.parseCompiled, FB.buildFieldSchema, FB.schemaBuilderFor, FB.getStringSchema,
            hty, hreq, hmin, hmax, hgd, h0n, zparse, runStrCheck]
  · refine ⟨?_, fun hnd hxd => ?_⟩
    · simp [FB.parseCompiled, FB.buildFieldSchema, FB.schemaBuilderFor, FB.dateBuilder,
        hty, hreq, zparse, runStrCheck]
    · simp [CB.parseCompiled, CB.buildFieldSchema, CB.schemaBuilderFor, CB.dateBuilder,
        hty, hreq, hnd, hxd, CB.zsMin, zparse, runStrCheck]
  · constructor <;>
      simp [CB.parseCompiled, CB.buildFieldSchema, CB.schemaBuilderFor, CB.emailBuilder,
        FB.parseCompiled, FB.buildFieldSchema, FB.schemaBuilderFor, FB.emailBuilder,
        hty, hreq, zparse, runStrCheck, hm]
  · constructor <;>
      simp [CB.parseCompiled, CB.buildFieldSchema, CB.schemaBuilderFor, CB.phoneBuilder,
        FB.parseCompiled, FB.buildFieldSchema, FB.schemaBuilderFor, FB.phoneBuilder,
        hty, hreq, zparse, runStrCheck, hp]

/-- C1 witness: the amended theorem at a required radio field (exactly
the default required message) and at a required email field of the form
variant (required message first, format message second). -/
theorem required_empty_value_messages_amended_witness :
    CB.parseCompiled
        ⟨"r1", "radio", "Pick", true, none, none, none, none, none, none, none, none⟩
        (.vstr "") = some ["Please select an option"] ∧
      FB.parseCompiled
        ⟨"e2", "email", "Email", true, none, none, none, none, none, none, none, none⟩
        (.vstr "") = ["This field is required.", "Invalid email"] := by
  constructor
  · have h := ((required_empty_value_messages_amended
      ⟨"r1", "radio", "Pick", true, none, none, none, none, none, none, none, none⟩
      rfl).1 (Or.inl rfl)).1
    simpa [orDefault] using h
  · have h := ((required_empty_value_messages_amended
      ⟨"e2", "email", "Email", true, none, none, none, none, none, none, none, none⟩
      rfl).2.2.2.2.1 rfl).2
    simpa [orDefault] using h

/-- C2 counterexample: the claim quantifies over every date field, but
the form-variant compiler never consults `minDate`/`maxDate`, so with
`minDate="2024-01-01", maxDate="2024-12-31"` the value `"2023-12-25"`
(claimed to fail) passes its compiled validator. -/
theorem date_rules_ignored_by_form_variant :
    FB.parseCompiled
      ⟨"d1", "date", "Date", false, none, none, none, none, none, none, none,
        some { minDate := some "2024-01-01", maxDate := some "2024-12-31" }⟩
      (.vstr "2023-12-25") = [] := by
  simp [FB.parseCompiled, FB.buildFieldSchema, FB.schemaBuilderFor, FB.dateBuilder, zparse,
    ParseResult.isOk, ParseResult.ok]

/-- C2 amended: only the checklist-variant date validator compares the
value lexically against `minDate`/`maxDate`, and only for non-required
fields (below-min fails with the min message, above-max with the max
message, in-range and empty pass); the form variant accepts every
string; and a required checklist-variant date field with such rules
makes schema compilation throw. -/
theorem date_lexical_range_amended (f : Field) (hty : f.ftype = "date") (md xd : String)
    (hmd : (f.validation.getD {}).minDate = some md) (hmd0 : md ≠ "")
    (hxd : (f.validation.getD {}).maxDate = some xd) (hxd0 : xd ≠ "") :
    (f.required = false →
      ∀ s : String, CB.parseCompiled f (.vstr s) =
        some ((if s = "" ∨ jsStrGe s md = true then [] else [s!"Date must be on or after {md}"])
          ++ (if s = "" ∨ jsStrLe s xd = true then [] else [s!"Date must be on or before {xd}"]))) ∧
    (f.required = false → ∀ s : String, FB.parseCompiled f (.vstr s) = []) ∧
    (f.required = true →
      CB.buildFieldSchema f = .error "TypeError: dateSchema.min is not a function") := by
  refine ⟨fun hreq s => ?_, fun hreq s => ?_, fun hreq => ?_⟩
  · by_cases h0 : s = "" <;>
      by_cases h1 : jsStrGe s md = true <;>
        by_cases h2 : jsStrLe s xd = true <;>
          simp [CB.parseCompiled, CB.buildFieldSchema, CB.schemaBuilderFor, CB.dateBuilder,
            hty, hreq, hmd, hxd, hmd0, hxd0, strTruthy, zparse, ParseResult.isOk,
            ParseResult.ok, h0, h1, h2]
  · simp [FB.parseCompiled, FB.buildFieldSchema, FB.schemaBuilderFor, FB.dateBuilder,
      hty, hreq, zparse, ParseResult.isOk, ParseResult.ok]
  · simp [CB.buildFieldSchema, CB.schemaBuilderFor, CB.dateBuilder, hty, hreq, hmd, hxd,
      hmd0, hxd0, strTruthy, CB.zsMin]

/-- C2 witness: the amended theorem at the scenario of the claim
(`minDate="2024-01-01", maxDate="2024-12-31"`): before-min fails,
in-range passes, after-max fails. -/
theorem date_lexical_range_amended_witness :
    CB.parseCompiled
        ⟨"d1", "date", "Date", false, none, none, none, none, none, none, none,
          some { minDate := some "2024-01-01", maxDate := some "2024-12-31" }⟩
        (.vstr "2023-12-25") = some ["Date must be on or after 2024-01-01"] ∧
      CB.parseCompiled
        ⟨"d1", "date", "Date", false, none, none, none, none, none, none, none,
          some { minDate := some "2024-01-01", maxDate := some "2024-12-31" }⟩
        (.vstr "2024-06-15") = some [] ∧
      CB.parseCompiled
        ⟨"d1", "date", "Date", false, none, none, none, none, none, none, none,
          some { minDate := some "2024-01-01", maxDate := some "2024-12-31" }⟩
        (.vstr "2025-01-01") = some ["Date must be on or before 2024-12-31"] := by
  have h := (date_lexical_range_amended
    ⟨"d1", "date", "Date", false, none, none, none, none, none, none, none,
      some { minDate := some "2024-01-01", maxDate := some "2024-12-31" }⟩
    rfl "2024-01-01" "2024-12-31" rfl (by decide) rfl (by decide)).1 rfl
  have hge1 : jsStrGe "2023-12-25" "2024-01-01" = false := by decide
  have hle1 : jsStrLe "2023-12-25" "2024-12-31" = true := by decide
  have hge2 : jsStrGe "2024-06-15" "2024-01-01" = true := by decide
  have hle2 : jsStrLe "2024-06-15" "2024-12-31" = true := by decide
  have hge3 : jsStrGe "2025-01-01" "2024-01-01" = true := by decide
  have hle3 : jsStrLe "2025-01-01" "2024-12-31" = false := by decide
  refine ⟨?_, ?_, ?_⟩
  · simpa [hge1, hle1] using h "2023-12-25"
  · simpa [hge2, hle2] using h "2024-06-15"
  · simpa [hge3, hle3] using h "2025-01-01"

/-- C4 witness: the theorem applied to a concrete non-required email
field. -/
theorem email_optional_empty_escape_witness :
    CB.parseCompiled ⟨"e1", "email", "Email", false, none, none, none, none, none, none,
        none, none⟩ (.vstr "") = some [] ∧
    FB.parseCompiled ⟨"e1", "email", "Email", false, none, none, none, none, none, none,
        none, none⟩ (.vstr "not-an-email") = ["Invalid email"] := by
  refine ⟨(email_optional_empty_escape _ rfl rfl).1, ?_⟩
  have h := (email_optional_empty_escape ⟨"e1", "email", "Email", false, none, none, none,
    none, none, none, none, none⟩ rfl rfl).2.2.2.2.1
  simpa [orDefault] using h

end Calendar
